import Mathlib

/-!
# Verification of the FlowMaestro task sender (`scripts/send_task.py`)

This file gives a shallow embedding of the producer script `scripts/send_task.py`
and of the spec-described Durable Mailbox claim operation, and proves or refutes
the frozen claims about them.

Modelling decisions:
* Python JSON values are the inductive `Json`; Python `dict`s are insertion-ordered
  association lists `List (String × Json)` with the exact `d[k] = v` / `d.update(u)`
  semantics (`dictSet`, `dictUpdate`).
* The nondeterministic inputs of `create_task_json` (`uuid.uuid4()`,
  `datetime.utcnow()`) are passed as explicit parameters `task_id`, `timestamp`.
* The external payload file is an `Option PayloadFile`: absent, unreadable /
  unparsable (both raise inside `create_task_json`), or parsed to a string-keyed
  mapping.
* The config loader `load_config_by_project_name` lives outside `src/`
  (`orchestrator/utils/config_loader.py`); per its collaborator interface it is a
  parameter `loadConfig : String → Option Config`, `none` meaning the
  config-not-found failure.
* Filesystem effects are recorded as an ordered trace of `FsOp`; `send_task`
  returns the trace it performed together with its result, and `applyOps` gives
  the resulting filesystem (a map from path to file contents).
-/

/-- A JSON value, as produced by Python's `json` module (numbers restricted to
integers, which is irrelevant to every claim). -/
inductive Json where
  | null : Json
  | bool : Bool → Json
  | num : Int → Json
  | str : String → Json
  | arr : List Json → Json
  | obj : List (String × Json) → Json

/-- First-match lookup in an insertion-ordered association list (Python `d[k]` /
`d.get(k)`; dicts built below have unique keys, so first match is the match). -/
def dictLookup (d : List (String × Json)) (k : String) : Option Json :=
  match d with
  | [] => none
  | (k', v) :: rest => if k' = k then some v else dictLookup rest k

/-- Python `d[k] = v`: replace the value at an existing key in place, else append
the new binding at the end. -/
def dictSet (d : List (String × Json)) (k : String) (v : Json) :
    List (String × Json) :=
  match d with
  | [] => [(k, v)]
  | (k', v') :: rest =>
      if k' = k then (k, v) :: rest else (k', v') :: dictSet rest k v

/-- Python `d.update(u)`: assign each binding of `u`, in order, into `d`. -/
def dictUpdate (d u : List (String × Json)) : List (String × Json) :=
  u.foldl (fun acc kv => dictSet acc kv.1 kv.2) d

/-- The state of the `--payload-file` argument as seen by `create_task_json`:
absent, present but unreadable (`open` raises), present but not valid JSON
(`json.load` raises), or parsed to a string-keyed mapping. -/
inductive PayloadFile where
  | unreadable : PayloadFile
  | unparsable : PayloadFile
  | ok : List (String × Json) → PayloadFile

/-- Errors raised by the script: `FileNotFoundError` from the config loader,
`ValueError` for a role not in `enabled_roles`, and the exceptions escaping
`create_task_json` when the payload file cannot be read or parsed. -/
inductive SendError where
  | configNotFound : SendError
  | invalidRole : String → List String → SendError
  | payloadUnreadable : SendError
  | payloadUnparsable : SendError
deriving DecidableEq, Repr

/-- `create_task_json(project, role, description, payload_file)` from
`scripts/send_task.py` (lines 20–59), with the generated `uuid4` and UTC
timestamp as explicit parameters.  Builds the task dict with the seven fixed
fields, then, if a payload file is given, merges its mapping into
`task["payload"]` via `dict.update`. -/
def create_task_json (task_id timestamp project role description : String)
    (payload_file : Option PayloadFile) :
    Except SendError (List (String × Json)) :=
  let task : List (String × Json) :=
    [("task_id", Json.str task_id),
     ("timestamp", Json.str timestamp),
     ("from", Json.str "user"),
     ("to", Json.str role),
     ("type", Json.str "request"),
     ("project", Json.str project),
     ("payload", Json.obj [("description", Json.str description)])]
  match payload_file with
  | none => Except.ok task
  | some PayloadFile.unreadable => Except.error SendError.payloadUnreadable
  | some PayloadFile.unparsable => Except.error SendError.payloadUnparsable
  | some (PayloadFile.ok payload) =>
      Except.ok (dictSet task "payload"
        (Json.obj (dictUpdate [("description", Json.str description)] payload)))

/-- The `messaging` section of a project config. -/
structure Messaging where
  base_dir : String
deriving DecidableEq, Repr

/-- A loaded project config, per the Config Loader collaborator interface:
`{ enabled_roles: [string], messaging: { base_dir: path } }`. -/
structure Config where
  enabled_roles : List String
  messaging : Messaging
deriving DecidableEq, Repr

/-- A filesystem mutation performed by the script. `writeFile` is
`open(path, "w")` + `json.dump` (create or truncate at the final path);
`rename` is an atomic rename (never emitted by `send_task`, present so that
claims about temp-file/rename protocols are statable). -/
inductive FsOp where
  | mkdirAll : String → FsOp
  | writeFile : String → Json → FsOp
  | rename : String → String → FsOp

/-- A filesystem: file contents by path. -/
def Fs : Type := String → Option Json

/-- Effect of one operation on the filesystem. `mkdirAll` creates directories
only; `writeFile` installs the new contents at the path, replacing whatever was
there (mode `"w"` truncates); `rename` moves the source contents to the
destination. -/
def applyOp (fs : Fs) (op : FsOp) : Fs :=
  match op with
  | FsOp.mkdirAll _ => fs
  | FsOp.writeFile p c => fun q => if q = p then some c else fs q
  | FsOp.rename src dst =>
      fun q => if q = dst then fs src else if q = src then none else fs q

/-- Effect of a trace of operations, in order. -/
def applyOps (fs : Fs) (ops : List FsOp) : Fs :=
  ops.foldl applyOp fs

/-- `send_task(project, role, description, payload_file, config_dir)` from
`scripts/send_task.py` (lines 61–108): load the config, validate the role
against `enabled_roles`, build the task dict, then `mkdir -p` the tasks
directory and write `<base_dir>/tasks/<task_id>.json`.  Returns the trace of
filesystem operations actually performed together with the result (the
task id, or the raised error). -/
def send_task (loadConfig : String → Option Config)
    (project role description : String) (payload_file : Option PayloadFile)
    (task_id timestamp : String) :
    List FsOp × Except SendError String :=
  match loadConfig project with
  | none => ([], Except.error SendError.configNotFound)
  | some config =>
      if role ∈ config.enabled_roles then
        match create_task_json task_id timestamp project role description
            payload_file with
        | Except.error e => ([], Except.error e)
        | Except.ok task =>
            let tasks_dir := config.messaging.base_dir ++ "/tasks"
            let task_file := tasks_dir ++ "/" ++ task_id ++ ".json"
            ([FsOp.mkdirAll tasks_dir, FsOp.writeFile task_file (Json.obj task)],
             Except.ok task_id)
      else ([], Except.error (SendError.invalidRole role config.enabled_roles))

/-- `true` iff some operation in the trace writes file contents directly at the
given path. -/
def writesDirectlyTo (ops : List FsOp) (p : String) : Bool :=
  ops.any fun op =>
    match op with
    | FsOp.writeFile q _ => q = p
    | _ => false

/-- `true` iff some operation in the trace renames a file into the given path. -/
def hasRenameTo (ops : List FsOp) (p : String) : Bool :=
  ops.any fun op =>
    match op with
    | FsOp.rename _ q => q = p
    | _ => false

/-- The atomic-publication protocol the spec requires of `enqueue`: the final
path is never the direct target of a write; instead some distinct temporary
path is written and then renamed onto the final path. -/
def atomicWriteProtocol (ops : List FsOp) (finalPath : String) : Prop :=
  writesDirectlyTo ops finalPath = false ∧ hasRenameTo ops finalPath = true

/-- Modelled from the spec: the Durable Mailbox state visible to `claim`
(§4.1; not present under `src/`, which contains only the producer script).
`pending` holds the task ids whose record files sit in the pending directory;
`claimed` records which worker's `claimed/<worker_id>/` directory holds each
claimed record. -/
structure MailboxState where
  pending : List String
  claimed : List (String × String)

/-- Modelled from the spec: `claim(role, task_id, worker_id)` (§4.1) moves the
record from `pending/` to `claimed/<worker_id>/` with a single atomic rename;
the rename succeeds iff the source file still exists, and a failed rename is
reported as `AlreadyClaimedError` (the only error this operation produces). -/
def claim (st : MailboxState) (task_id worker_id : String) :
    Except Unit MailboxState :=
  if task_id ∈ st.pending then
    Except.ok ⟨st.pending.erase task_id, (task_id, worker_id) :: st.claimed⟩
  else
    Except.error ()

/-- Modelled from the spec: an interleaving of concurrent `claim` callers.
Because each `claim` is a single atomic rename (§5: the filesystem's atomic
rename is the only consistency primitive), any concurrent execution is
equivalent to running the attempts in some sequential order; `runClaims`
executes one such order and records, per attempt `(task_id, worker_id)`,
whether it succeeded (`false` meaning the caller observed
`AlreadyClaimedError`). -/
def runClaims (st : MailboxState) :
    List (String × String) → MailboxState × List ((String × String) × Bool)
  | [] => (st, [])
  | (tid, w) :: rest =>
      match claim st tid w with
      | Except.ok st' =>
          let r := runClaims st' rest
          (r.1, ((tid, w), true) :: r.2)
      | Except.error _ =>
          let r := runClaims st rest
          (r.1, ((tid, w), false) :: r.2)

/-- Number of successful claims for a given task id in a run's result list. -/
def successCount (results : List ((String × String) × Bool)) (tid : String) :
    Nat :=
  results.countP fun r => r.1.1 == tid && r.2

/-- A Task Record as abstract data: the seven fixed wire-format fields.  The
`from` and `to` fields are `from_` and `to_` because both are reserved words
in Lean. -/
structure TaskRecord where
  task_id : String
  timestamp : String
  from_ : String
  to_ : String
  type : String
  project : String
  payload : List (String × Json)

/-- Serialize a Task Record to its JSON wire shape (§6): an object with exactly
the fields `task_id`, `timestamp`, `from`, `to`, `type`, `project`, `payload`
in that order. -/
def recordToJson (r : TaskRecord) : Json :=
  Json.obj
    [("task_id", Json.str r.task_id),
     ("timestamp", Json.str r.timestamp),
     ("from", Json.str r.from_),
     ("to", Json.str r.to_),
     ("type", Json.str r.type),
     ("project", Json.str r.project),
     ("payload", Json.obj r.payload)]

/-- Parse a JSON document back into a Task Record: extract the seven fields,
requiring string values for the six scalar fields and an object for
`payload`. -/
def jsonToRecord (j : Json) : Option TaskRecord :=
  match j with
  | Json.obj d =>
      match dictLookup d "task_id", dictLookup d "timestamp",
          dictLookup d "from", dictLookup d "to", dictLookup d "type",
          dictLookup d "project", dictLookup d "payload" with
      | some (Json.str tid), some (Json.str ts), some (Json.str fr),
        some (Json.str tgt), some (Json.str ty), some (Json.str pr),
        some (Json.obj pl) => some ⟨tid, ts, fr, tgt, ty, pr, pl⟩
      | _, _, _, _, _, _, _ => none
  | _ => none

/-- A concrete config loader for concrete runs: one project `demo` with roles
`architect` and `builder` and base directory `/mb`. -/
def demoLoader : String → Option Config :=
  fun p => if p = "demo" then some ⟨["architect", "builder"], ⟨"/mb"⟩⟩ else none

/-- A concrete initial filesystem in which a record named `t1.json` already
exists in the demo project's tasks directory. -/
def preexistingFs : Fs :=
  fun q => if q = "/mb/tasks/t1.json" then some (Json.str "old record") else none

theorem dictUpdate_nil (d : List (String × Json)) : dictUpdate d [] = d := rfl

theorem dictUpdate_cons (d : List (String × Json)) (kv : String × Json)
    (u : List (String × Json)) :
    dictUpdate d (kv :: u) = dictUpdate (dictSet d kv.1 kv.2) u := rfl

theorem dictLookup_dictSet_self (d : List (String × Json)) (k : String)
    (v : Json) : dictLookup (dictSet d k v) k = some v := by
  induction d with
  | nil => simp [dictSet, dictLookup]
  | cons hd tl ih =>
      obtain ⟨k', v'⟩ := hd
      by_cases h : k' = k
      · simp [dictSet, dictLookup, h]
      · simp [dictSet, dictLookup, h, ih]

theorem dictLookup_dictSet_ne (d : List (String × Json)) (k' k : String)
    (v : Json) (h : k' ≠ k) :
    dictLookup (dictSet d k' v) k = dictLookup d k := by
  induction d with
  | nil => simp [dictSet, dictLookup, h]
  | cons hd tl ih =>
      obtain ⟨k'', v''⟩ := hd
      by_cases h2 : k'' = k'
      · subst h2
        simp [dictSet, dictLookup, h]
      · by_cases h3 : k'' = k
        · subst h3
          simp [dictSet, dictLookup, h2]
        · simp [dictSet, dictLookup, h2, h3, ih]

theorem dictSet_map_fst_of_mem (d : List (String × Json)) (k : String)
    (v : Json) (h : k ∈ d.map Prod.fst) :
    (dictSet d k v).map Prod.fst = d.map Prod.fst := by
  induction d with
  | nil => simp at h
  | cons hd tl ih =>
      obtain ⟨k', v'⟩ := hd
      by_cases h2 : k' = k
      · simp [dictSet, h2]
      · simp only [dictSet, if_neg h2, List.map_cons]
        simp only [List.map_cons, List.mem_cons] at h
        rcases h with h | h
        · exact absurd h.symm h2
        · rw [ih h]

theorem dictLookup_dictUpdate_not_mem (d u : List (String × Json)) (k : String)
    (h : k ∉ u.map Prod.fst) :
    dictLookup (dictUpdate d u) k = dictLookup d k := by
  induction u generalizing d with
  | nil => rfl
  | cons kv u ih =>
      simp only [List.map_cons, List.mem_cons] at h
      push_neg at h
      rw [dictUpdate_cons, ih _ h.2, dictLookup_dictSet_ne _ _ _ _ (Ne.symm h.1)]

theorem dictLookup_dictUpdate_mem (d u : List (String × Json)) (k : String)
    (v : Json) (hnd : (u.map Prod.fst).Nodup) (hmem : (k, v) ∈ u) :
    dictLookup (dictUpdate d u) k = some v := by
  induction u generalizing d with
  | nil => simp at hmem
  | cons kv u ih =>
      simp only [List.map_cons, List.nodup_cons] at hnd
      rw [dictUpdate_cons]
      rcases List.mem_cons.mp hmem with h | h
      · subst h
        rw [dictLookup_dictUpdate_not_mem _ _ _ hnd.1,
          dictLookup_dictSet_self]
      · exact ih _ hnd.2 h

theorem dictLookup_dictSet_isSome (d : List (String × Json)) (k' k : String)
    (v : Json) (h : (dictLookup d k).isSome = true) :
    (dictLookup (dictSet d k' v) k).isSome = true := by
  by_cases h2 : k' = k
  · subst h2
    rw [dictLookup_dictSet_self]
    rfl
  · rw [dictLookup_dictSet_ne _ _ _ _ h2]
    exact h

theorem dictLookup_dictUpdate_isSome (d u : List (String × Json)) (k : String)
    (h : (dictLookup d k).isSome = true) :
    (dictLookup (dictUpdate d u) k).isSome = true := by
  induction u generalizing d with
  | nil => exact h
  | cons kv u ih =>
      rw [dictUpdate_cons]
      exact ih _ (dictLookup_dictSet_isSome _ _ _ _ h)

/-- C1: `send_task` fails with the invalid-role `ValueError` exactly when the
role is not in the loaded config's `enabled_roles`; when the role is enabled
(and the optional payload file, if given, is readable and parses) it creates
the task and returns the new task id; a config-not-found failure from the
config loader propagates to the caller. -/
theorem c1_send_task_role_validation (loadConfig : String → Option Config)
    (project role description : String) (payload_file : Option PayloadFile)
    (task_id timestamp : String) :
    (loadConfig project = none →
      send_task loadConfig project role description payload_file task_id
          timestamp
        = ([], Except.error SendError.configNotFound)) ∧
    (∀ config, loadConfig project = some config →
      (((send_task loadConfig project role description payload_file task_id
            timestamp).2
          = Except.error (SendError.invalidRole role config.enabled_roles))
        ↔ role ∉ config.enabled_roles) ∧
      (role ∈ config.enabled_roles →
        (∀ pf, payload_file = some pf → ∃ kvs, pf = PayloadFile.ok kvs) →
        (send_task loadConfig project role description payload_file
          task_id timestamp).2 = Except.ok task_id)) := by
  refine ⟨fun h => by simp [send_task, h], fun config hc => ?_⟩
  by_cases hr : role ∈ config.enabled_roles
  · refine ⟨⟨fun habs => ?_, fun habs => absurd hr habs⟩, fun _ hok => ?_⟩
    · exfalso
      cases payload_file with
      | none => simp [send_task, create_task_json, hc, hr] at habs
      | some pf =>
          cases pf <;> simp [send_task, create_task_json, hc, hr] at habs
    · cases payload_file with
      | none => simp [send_task, create_task_json, hc, hr]
      | some pf =>
          obtain ⟨kvs, rfl⟩ := hok pf rfl
          simp [send_task, create_task_json, hc, hr]
  · exact ⟨by simp [send_task, hc, hr], fun h => absurd h hr⟩

/-- Witness for C1 at concrete inputs: sending to the enabled role `builder`
of project `demo` succeeds with the generated task id. -/
theorem c1_send_task_role_validation_witness :
    (send_task demoLoader "demo" "builder" "build it" none "t1" "ts").2
      = Except.ok "t1" :=
  ((c1_send_task_role_validation demoLoader "demo" "builder" "build it"
      none "t1" "ts").2
    ⟨["architect", "builder"], ⟨"/mb"⟩⟩ (by simp [demoLoader])).2
    (by simp) (fun pf h => by cases h)

/-- C8: whenever `send_task` raises (config not found, invalid role,
unreadable or unparsable payload file) it has performed no filesystem
operation: the trace is empty and any filesystem is left unchanged.
Moreover an invalid-role failure is decided before the task JSON is built:
with the role not enabled, the result is the same invalid-role error with
an empty trace for every possible payload-file state. -/
theorem c8_error_leaves_fs_unchanged (loadConfig : String → Option Config)
    (project role description : String) (payload_file : Option PayloadFile)
    (task_id timestamp : String) :
    (∀ e, (send_task loadConfig project role description payload_file task_id
        timestamp).2 = Except.error e →
      (send_task loadConfig project role description payload_file task_id
          timestamp).1 = [] ∧
      ∀ fs : Fs, applyOps fs (send_task loadConfig project role description
        payload_file task_id timestamp).1 = fs) ∧
    (∀ config, loadConfig project = some config →
      role ∉ config.enabled_roles →
      ∀ pf, send_task loadConfig project role description pf task_id timestamp
        = ([], Except.error (SendError.invalidRole role
            config.enabled_roles))) := by
  constructor
  · intro e he
    have hops : (send_task loadConfig project role description payload_file
        task_id timestamp).1 = [] := by
      cases hl : loadConfig project with
      | none => simp [send_task, hl]
      | some config =>
          by_cases hr : role ∈ config.enabled_roles
          · cases payload_file with
            | none => simp [send_task, create_task_json, hl, hr] at he
            | some pf =>
                cases pf with
                | unreadable => simp [send_task, create_task_json, hl, hr]
                | unparsable => simp [send_task, create_task_json, hl, hr]
                | ok kvs =>
                    simp [send_task, create_task_json, hl, hr] at he
          · simp [send_task, hl, hr]
    exact ⟨hops, fun fs => by rw [hops]; rfl⟩
  · intro config hc hr pf
    simp [send_task, hc, hr]

/-- Witness for C8 at a concrete input: an unknown project name produces the
config-not-found error with an empty trace, leaving the pre-existing
filesystem untouched. -/
theorem c8_error_leaves_fs_unchanged_witness :
    (send_task demoLoader "nope" "builder" "build it" none "t1" "ts").1 = []
      ∧ applyOps preexistingFs
          (send_task demoLoader "nope" "builder" "build it" none "t1" "ts").1
        = preexistingFs := by
  obtain ⟨h1, h2⟩ :=
    (c8_error_leaves_fs_unchanged demoLoader "nope" "builder" "build it" none
      "t1" "ts").1 SendError.configNotFound (by simp [send_task, demoLoader])
  exact ⟨h1, h2 preexistingFs⟩

/-- C10: every record built by `create_task_json` carries the constant
producer identity `"user"` in its `from` field. -/
theorem c10_from_field_is_user (task_id timestamp project role description :
    String) (payload_file : Option PayloadFile) (task : List (String × Json))
    (h : create_task_json task_id timestamp project role description
      payload_file = Except.ok task) :
    dictLookup task "from" = some (Json.str "user") := by
  cases payload_file with
  | none =>
      cases h
      simp [dictLookup]
  | some pf =>
      cases pf with
      | unreadable => cases h
      | unparsable => cases h
      | ok kvs =>
          cases h
          rw [dictLookup_dictSet_ne _ _ _ _ (by decide)]
          simp [dictLookup]

/-- Witness for C10 at concrete inputs, with a payload file that even tries
to supply its own `from` key (which lands in the payload, not at top level). -/
theorem c10_from_field_is_user_witness :
    dictLookup
      [("task_id", Json.str "t1"), ("timestamp", Json.str "ts"),
       ("from", Json.str "user"), ("to", Json.str "builder"),
       ("type", Json.str "request"), ("project", Json.str "demo"),
       ("payload", Json.obj [("description", Json.str "build it"),
         ("from", Json.str "mallory")])] "from"
      = some (Json.str "user") :=
  c10_from_field_is_user "t1" "ts" "demo" "builder" "build it"
    (some (PayloadFile.ok [("from", Json.str "mallory")])) _ rfl

/-- C9: merging an external payload file touches only the `payload` mapping:
for the same generated id and timestamp, each of the six other top-level
fields of the record built with a payload file equals the one built without
it, whatever the file's keys. -/
theorem c9_merge_frame (task_id timestamp project role description : String)
    (ext : List (String × Json)) (task task₀ : List (String × Json))
    (h1 : create_task_json task_id timestamp project role description
      (some (PayloadFile.ok ext)) = Except.ok task)
    (h0 : create_task_json task_id timestamp project role description none
      = Except.ok task₀) :
    ∀ f ∈ (["task_id", "timestamp", "from", "to", "type", "project"] :
        List String),
      dictLookup task f = dictLookup task₀ f := by
  cases h1
  cases h0
  intro f hf
  fin_cases hf <;> rw [dictLookup_dictSet_ne _ _ _ _ (by decide)]

/-- Witness for C9 at concrete inputs: a payload file overriding
`description` and adding keys named like top-level fields leaves the
top-level `project` field of the record as built without the file. -/
theorem c9_merge_frame_witness :
    dictLookup
        (dictSet
          [("task_id", Json.str "t1"), ("timestamp", Json.str "ts"),
           ("from", Json.str "user"), ("to", Json.str "builder"),
           ("type", Json.str "request"), ("project", Json.str "demo"),
           ("payload", Json.obj [("description", Json.str "build it")])]
          "payload"
          (Json.obj (dictUpdate [("description", Json.str "build it")]
            [("project", Json.str "evil"), ("extra", Json.num 1)]))) "project"
      = dictLookup
          [("task_id", Json.str "t1"), ("timestamp", Json.str "ts"),
           ("from", Json.str "user"), ("to", Json.str "builder"),
           ("type", Json.str "request"), ("project", Json.str "demo"),
           ("payload", Json.obj [("description", Json.str "build it")])]
          "project" :=
  c9_merge_frame "t1" "ts" "demo" "builder" "build it"
    [("project", Json.str "evil"), ("extra", Json.num 1)] _ _ rfl rfl
    "project" (by simp)

/-- C6: every record built by the producer has exactly the seven fixed
top-level field names in wire order, its `type` field is the string
`"request"`, and its payload mapping contains a `description` key. -/
theorem c6_fixed_record_shape (task_id timestamp project role description :
    String) (payload_file : Option PayloadFile) (task : List (String × Json))
    (h : create_task_json task_id timestamp project role description
      payload_file = Except.ok task) :
    task.map Prod.fst
      = ["task_id", "timestamp", "from", "to", "type", "project", "payload"] ∧
    dictLookup task "type" = some (Json.str "request") ∧
    ∃ pl, dictLookup task "payload" = some (Json.obj pl) ∧
      (dictLookup pl "description").isSome = true := by
  cases payload_file with
  | none =>
      cases h
      refine ⟨by simp, by simp [dictLookup], ?_⟩
      exact ⟨[("description", Json.str description)], by simp [dictLookup],
        by simp [dictLookup]⟩
  | some pf =>
      cases pf with
      | unreadable => cases h
      | unparsable => cases h
      | ok kvs =>
          cases h
          refine ⟨?_, ?_, ?_⟩
          · rw [dictSet_map_fst_of_mem _ _ _ (by simp)]
            simp
          · rw [dictLookup_dictSet_ne _ _ _ _ (by decide)]
            simp [dictLookup]
          · refine ⟨_, dictLookup_dictSet_self _ _ _, ?_⟩
            exact dictLookup_dictUpdate_isSome _ _ _ (by simp [dictLookup])

/-- Witness for C6 at concrete inputs with a payload file adding a key. -/
theorem c6_fixed_record_shape_witness :
    (dictSet
        [("task_id", Json.str "t1"), ("timestamp", Json.str "ts"),
         ("from", Json.str "user"), ("to", Json.str "builder"),
         ("type", Json.str "request"), ("project", Json.str "demo"),
         ("payload", Json.obj [("description", Json.str "build it")])]
        "payload"
        (Json.obj (dictUpdate [("description", Json.str "build it")]
          [("extra", Json.num 1)]))).map Prod.fst
      = ["task_id", "timestamp", "from", "to", "type", "project", "payload"] :=
  (c6_fixed_record_shape "t1" "ts" "demo" "builder" "build it"
    (some (PayloadFile.ok [("extra", Json.num 1)])) _ rfl).1

/-- C4: for every payload file parsing to a string-keyed mapping, the
constructed record serializes to the wire JSON of the Task Record whose
payload is the merged mapping, parsing that JSON back recovers the record
field for field, and in the merged payload every key of the external file
maps to the external file's value, override included. -/
theorem c4_roundtrip_and_merge (task_id timestamp project role description :
    String) (ext : List (String × Json))
    (hnd : (ext.map Prod.fst).Nodup) :
    ∃ task,
      create_task_json task_id timestamp project role description
          (some (PayloadFile.ok ext)) = Except.ok task ∧
      Json.obj task
        = recordToJson ⟨task_id, timestamp, "user", role, "request", project,
            dictUpdate [("description", Json.str description)] ext⟩ ∧
      jsonToRecord (Json.obj task)
        = some ⟨task_id, timestamp, "user", role, "request", project,
            dictUpdate [("description", Json.str description)] ext⟩ ∧
      ∀ k v, (k, v) ∈ ext →
        dictLookup (dictUpdate [("description", Json.str description)] ext) k
          = some v := by
  have h : create_task_json task_id timestamp project role description
      (some (PayloadFile.ok ext))
    = Except.ok (dictSet
        [("task_id", Json.str task_id), ("timestamp", Json.str timestamp),
         ("from", Json.str "user"), ("to", Json.str role),
         ("type", Json.str "request"), ("project", Json.str project),
         ("payload", Json.obj [("description", Json.str description)])]
        "payload"
        (Json.obj (dictUpdate [("description", Json.str description)] ext)))
    := rfl
  refine ⟨_, h, rfl, rfl, ?_⟩
  intro k v hmem
  exact dictLookup_dictUpdate_mem _ _ _ _ hnd hmem

/-- Witness for C4 at concrete inputs: the external payload file overrides
the injected `description`, and the override wins in the merged payload. -/
theorem c4_roundtrip_and_merge_witness :
    dictLookup (dictUpdate [("description", Json.str "base")]
        [("description", Json.str "override"), ("extra", Json.num 1)])
        "description"
      = some (Json.str "override") := by
  obtain ⟨task, _, _, _, h4⟩ :=
    c4_roundtrip_and_merge "t1" "ts" "demo" "builder" "base"
      [("description", Json.str "override"), ("extra", Json.num 1)] (by simp)
  exact h4 "description" (Json.str "override") (by simp)

/-- C2 counterexample: with a record named `t1.json` already present in the
demo project's tasks directory, re-enqueuing task id `t1` does not fail with
any duplicate error — it succeeds — and the existing record's contents are
replaced by the new record. -/
theorem c2_counterexample_overwrite :
    (send_task demoLoader "demo" "builder" "redo" none "t1" "ts2").2
      = Except.ok "t1" ∧
    preexistingFs "/mb/tasks/t1.json" = some (Json.str "old record") ∧
    applyOps preexistingFs
        (send_task demoLoader "demo" "builder" "redo" none "t1" "ts2").1
        "/mb/tasks/t1.json"
      = some (Json.obj
          [("task_id", Json.str "t1"), ("timestamp", Json.str "ts2"),
           ("from", Json.str "user"), ("to", Json.str "builder"),
           ("type", Json.str "request"), ("project", Json.str "demo"),
           ("payload", Json.obj [("description", Json.str "redo")])]) ∧
    Json.obj
        [("task_id", Json.str "t1"), ("timestamp", Json.str "ts2"),
         ("from", Json.str "user"), ("to", Json.str "builder"),
         ("type", Json.str "request"), ("project", Json.str "demo"),
         ("payload", Json.obj [("description", Json.str "redo")])]
      ≠ Json.str "old record" :=
  ⟨rfl, rfl, rfl, fun h => Json.noConfusion h⟩

/-- C2 amended: `send_task` never checks whether the destination name already
exists; every successful call installs the new record at
`<base_dir>/tasks/<task_id>.json` whatever the previous filesystem contents,
so an id collision is silently overwritten rather than rejected. -/
theorem c2_amended_unconditional_write (loadConfig : String → Option Config)
    (project role description : String) (payload_file : Option PayloadFile)
    (task_id timestamp : String) (config : Config)
    (hc : loadConfig project = some config)
    (hs : (send_task loadConfig project role description payload_file task_id
      timestamp).2 = Except.ok task_id) :
    ∃ task, create_task_json task_id timestamp project role description
        payload_file = Except.ok task ∧
      ∀ fs : Fs,
        applyOps fs (send_task loadConfig project role description
            payload_file task_id timestamp).1
          (config.messaging.base_dir ++ "/tasks" ++ "/" ++ task_id ++ ".json")
          = some (Json.obj task) := by
  by_cases hr : role ∈ config.enabled_roles
  · cases hcr : create_task_json task_id timestamp project role description
        payload_file with
    | error e => simp [send_task, hc, hr, hcr] at hs
    | ok task =>
        refine ⟨task, rfl, fun fs => ?_⟩
        simp [send_task, hc, hr, hcr, applyOps, applyOp]
  · simp [send_task, hc, hr] at hs

/-- Witness for the amended C2 at concrete inputs: the overwrite of the
pre-existing record, obtained from the amended theorem. -/
theorem c2_amended_unconditional_write_witness :
    applyOps preexistingFs
        (send_task demoLoader "demo" "builder" "redo" none "t1" "ts2").1
        ("/mb" ++ "/tasks" ++ "/" ++ "t1" ++ ".json")
      = some (Json.obj
          [("task_id", Json.str "t1"), ("timestamp", Json.str "ts2"),
           ("from", Json.str "user"), ("to", Json.str "builder"),
           ("type", Json.str "request"), ("project", Json.str "demo"),
           ("payload", Json.obj [("description", Json.str "redo")])]) := by
  obtain ⟨task, h1, h2⟩ :=
    c2_amended_unconditional_write demoLoader "demo" "builder" "redo" none
      "t1" "ts2" ⟨["architect", "builder"], ⟨"/mb"⟩⟩ (by simp [demoLoader])
      rfl
  cases h1
  exact h2 preexistingFs

/-- C3 counterexample: a successful concrete run writes the serialized record
directly under its final name `/mb/tasks/t1.json` and performs no rename, so
the temporary-path-then-atomic-rename protocol claimed for enqueue does not
hold. -/
theorem c3_counterexample_no_atomic_rename :
    (send_task demoLoader "demo" "builder" "build it" none "t1" "ts").2
      = Except.ok "t1" ∧
    ¬ atomicWriteProtocol
        (send_task demoLoader "demo" "builder" "build it" none "t1" "ts").1
        "/mb/tasks/t1.json" := by
  refine ⟨rfl, fun hap => ?_⟩
  exact absurd hap.1 (by decide)

/-- C3 amended: the serialized record is written directly to its final path.
Every successful `send_task` run's trace is exactly a `mkdir -p` of the tasks
directory followed by one direct write of the record under its final name;
no temporary file and no rename is ever used. -/
theorem c3_amended_direct_final_write (loadConfig : String → Option Config)
    (project role description : String) (payload_file : Option PayloadFile)
    (task_id timestamp : String) (config : Config)
    (hc : loadConfig project = some config)
    (hs : (send_task loadConfig project role description payload_file task_id
      timestamp).2 = Except.ok task_id) :
    ∃ task, create_task_json task_id timestamp project role description
        payload_file = Except.ok task ∧
      (send_task loadConfig project role description payload_file task_id
          timestamp).1
        = [FsOp.mkdirAll (config.messaging.base_dir ++ "/tasks"),
           FsOp.writeFile
             (config.messaging.base_dir ++ "/tasks" ++ "/" ++ task_id
               ++ ".json")
             (Json.obj task)] ∧
      writesDirectlyTo
          (send_task loadConfig project role description payload_file task_id
            timestamp).1
          (config.messaging.base_dir ++ "/tasks" ++ "/" ++ task_id ++ ".json")
        = true ∧
      ∀ src dst, FsOp.rename src dst
        ∉ (send_task loadConfig project role description payload_file task_id
            timestamp).1 := by
  by_cases hr : role ∈ config.enabled_roles
  · cases hcr : create_task_json task_id timestamp project role description
        payload_file with
    | error e => simp [send_task, hc, hr, hcr] at hs
    | ok task =>
        have htrace : (send_task loadConfig project role description
            payload_file task_id timestamp).1
          = [FsOp.mkdirAll (config.messaging.base_dir ++ "/tasks"),
             FsOp.writeFile
               (config.messaging.base_dir ++ "/tasks" ++ "/" ++ task_id
                 ++ ".json")
               (Json.obj task)] := by
          simp [send_task, hc, hr, hcr]
        refine ⟨task, rfl, htrace, ?_, ?_⟩
        · rw [htrace]
          simp [writesDirectlyTo]
        · intro src dst hmem
          rw [htrace] at hmem
          rcases List.mem_cons.mp hmem with h1 | h1
          · exact FsOp.noConfusion h1
          · rcases List.mem_cons.mp h1 with h2 | h2
            · exact FsOp.noConfusion h2
            · exact List.not_mem_nil _ h2
  · simp [send_task, hc, hr] at hs

/-- Witness for the amended C3 at concrete inputs: the trace of the demo run
is the mkdir followed by the one direct write of the record. -/
theorem c3_amended_direct_final_write_witness :
    (send_task demoLoader "demo" "builder" "build it" none "t1" "ts").1
      = [FsOp.mkdirAll ("/mb" ++ "/tasks"),
         FsOp.writeFile ("/mb" ++ "/tasks" ++ "/" ++ "t1" ++ ".json")
           (Json.obj
             [("task_id", Json.str "t1"), ("timestamp", Json.str "ts"),
              ("from", Json.str "user"), ("to", Json.str "builder"),
              ("type", Json.str "request"), ("project", Json.str "demo"),
              ("payload", Json.obj
                [("description", Json.str "build it")])])] := by
  obtain ⟨task, h1, h2, _, _⟩ :=
    c3_amended_direct_final_write demoLoader "demo" "builder" "build it" none
      "t1" "ts" ⟨["architect", "builder"], ⟨"/mb"⟩⟩ (by simp [demoLoader]) rfl
  cases h1
  exact h2

/-- C5 counterexample: a successful concrete run neither writes nor renames
anything at the spec's path `/mb/tasks/pending/t1.json` — that path stays
absent — while the record is written at `/mb/tasks/t1.json` instead. -/
theorem c5_counterexample_no_pending_path :
    (send_task demoLoader "demo" "builder" "build it" none "t1" "ts").2
      = Except.ok "t1" ∧
    writesDirectlyTo
        (send_task demoLoader "demo" "builder" "build it" none "t1" "ts").1
        "/mb/tasks/pending/t1.json" = false ∧
    hasRenameTo
        (send_task demoLoader "demo" "builder" "build it" none "t1" "ts").1
        "/mb/tasks/pending/t1.json" = false ∧
    applyOps (fun _ => none)
        (send_task demoLoader "demo" "builder" "build it" none "t1" "ts").1
        "/mb/tasks/pending/t1.json" = none ∧
    writesDirectlyTo
        (send_task demoLoader "demo" "builder" "build it" none "t1" "ts").1
        "/mb/tasks/t1.json" = true :=
  ⟨rfl, by decide, by decide, rfl, by decide⟩

/-- C5 amended: the record file is created at
`<base_dir>/tasks/<task_id>.json` — there is no `pending/` level; the write
under that name is the only write the trace performs. -/
theorem c5_amended_task_file_location (loadConfig : String → Option Config)
    (project role description : String) (payload_file : Option PayloadFile)
    (task_id timestamp : String) (config : Config)
    (hc : loadConfig project = some config)
    (hs : (send_task loadConfig project role description payload_file task_id
      timestamp).2 = Except.ok task_id) :
    ∃ task, create_task_json task_id timestamp project role description
        payload_file = Except.ok task ∧
      FsOp.writeFile
          (config.messaging.base_dir ++ "/tasks" ++ "/" ++ task_id ++ ".json")
          (Json.obj task)
        ∈ (send_task loadConfig project role description payload_file task_id
            timestamp).1 ∧
      ∀ p c, FsOp.writeFile p c
          ∈ (send_task loadConfig project role description payload_file
              task_id timestamp).1 →
        p = config.messaging.base_dir ++ "/tasks" ++ "/" ++ task_id
          ++ ".json" := by
  by_cases hr : role ∈ config.enabled_roles
  · cases hcr : create_task_json task_id timestamp project role description
        payload_file with
    | error e => simp [send_task, hc, hr, hcr] at hs
    | ok task =>
        have htrace : (send_task loadConfig project role description
            payload_file task_id timestamp).1
          = [FsOp.mkdirAll (config.messaging.base_dir ++ "/tasks"),
             FsOp.writeFile
               (config.messaging.base_dir ++ "/tasks" ++ "/" ++ task_id
                 ++ ".json")
               (Json.obj task)] := by
          simp [send_task, hc, hr, hcr]
        refine ⟨task, rfl, ?_, ?_⟩
        · rw [htrace]
          exact List.mem_cons_of_mem _ (List.mem_cons_self _ _)
        · intro p c hmem
          rw [htrace] at hmem
          rcases List.mem_cons.mp hmem with h1 | h1
          · exact FsOp.noConfusion h1
          · rcases List.mem_cons.mp h1 with h2 | h2
            · injection h2 with hp hc2
            · exact absurd h2 (List.not_mem_nil _)
  · simp [send_task, hc, hr] at hs

/-- Witness for the amended C5 at concrete inputs: the record write under
`/mb/tasks/t1.json` is in the demo run's trace. -/
theorem c5_amended_task_file_location_witness :
    FsOp.writeFile ("/mb" ++ "/tasks" ++ "/" ++ "t1" ++ ".json")
        (Json.obj
          [("task_id", Json.str "t1"), ("timestamp", Json.str "ts"),
           ("from", Json.str "user"), ("to", Json.str "builder"),
           ("type", Json.str "request"), ("project", Json.str "demo"),
           ("payload", Json.obj [("description", Json.str "build it")])])
      ∈ (send_task demoLoader "demo" "builder" "build it" none "t1" "ts").1
    := by
  obtain ⟨task, h1, h2, _⟩ :=
    c5_amended_task_file_location demoLoader "demo" "builder" "build it" none
      "t1" "ts" ⟨["architect", "builder"], ⟨"/mb"⟩⟩ (by simp [demoLoader]) rfl
  cases h1
  exact h2

theorem runClaims_map_fst (st : MailboxState)
    (attempts : List (String × String)) :
    (runClaims st attempts).2.map Prod.fst = attempts := by
  induction attempts generalizing st with
  | nil => rfl
  | cons a rest ih =>
      obtain ⟨t, w⟩ := a
      by_cases hp : t ∈ st.pending
      · simp [runClaims, claim, hp, ih]
      · simp [runClaims, claim, hp, ih]

theorem runClaims_successCount_of_not_pending (st : MailboxState)
    (attempts : List (String × String)) (tid : String)
    (h : tid ∉ st.pending) :
    successCount (runClaims st attempts).2 tid = 0 := by
  induction attempts generalizing st with
  | nil => rfl
  | cons a rest ih =>
      obtain ⟨t, w⟩ := a
      by_cases hp : t ∈ st.pending
      · have hne : t ≠ tid := fun he => h (he ▸ hp)
        have h2 : tid ∉ st.pending.erase t :=
          fun hm => h (List.mem_of_mem_erase hm)
        simpa [runClaims, claim, hp, successCount, List.countP_cons, hne]
          using ih ⟨st.pending.erase t, (t, w) :: st.claimed⟩ h2
      · simpa [runClaims, claim, hp, successCount, List.countP_cons]
          using ih st h

theorem runClaims_cons_mem (st : MailboxState) (t w : String)
    (rest : List (String × String)) (hp : t ∈ st.pending) :
    runClaims st ((t, w) :: rest)
      = ((runClaims ⟨st.pending.erase t, (t, w) :: st.claimed⟩ rest).1,
         ((t, w), true)
           :: (runClaims ⟨st.pending.erase t, (t, w) :: st.claimed⟩ rest).2)
    := by
  simp [runClaims, claim, hp]

theorem runClaims_cons_not_mem (st : MailboxState) (t w : String)
    (rest : List (String × String)) (hp : t ∉ st.pending) :
    runClaims st ((t, w) :: rest)
      = ((runClaims st rest).1, ((t, w), false) :: (runClaims st rest).2) := by
  simp [runClaims, claim, hp]

theorem successCount_cons (r : (String × String) × Bool)
    (results : List ((String × String) × Bool)) (tid : String) :
    successCount (r :: results) tid
      = successCount results tid + (if r.1.1 == tid && r.2 then 1 else 0) :=
  List.countP_cons _ _ _

/-- C7: for every task id, across any interleaving of concurrent `claim`
callers at most one call succeeds, and every caller gets a result; in the
model, a `false` outcome is the `claim` rename failing, which is exactly the
caller observing `AlreadyClaimedError`.  The hypothesis is the mailbox
invariant that a task id names at most one pending record. -/
theorem c7_at_most_one_claim_succeeds (st : MailboxState) (tid : String)
    (attempts : List (String × String))
    (h : st.pending.count tid ≤ 1) :
    successCount (runClaims st attempts).2 tid ≤ 1 ∧
    (runClaims st attempts).2.map Prod.fst = attempts := by
  refine ⟨?_, runClaims_map_fst st attempts⟩
  induction attempts generalizing st with
  | nil => exact Nat.zero_le 1
  | cons a rest ih =>
      obtain ⟨t, w⟩ := a
      by_cases hp : t ∈ st.pending
      · rw [runClaims_cons_mem st t w rest hp, successCount_cons]
        by_cases ht : t = tid
        · subst ht
          have hone : st.pending.count t = 1 :=
            le_antisymm h (List.count_pos_iff.mpr hp)
          have hnot : t ∉ st.pending.erase t := by
            have hz : (st.pending.erase t).count t = 0 := by
              rw [List.count_erase_self, hone]
            exact List.count_eq_zero.mp hz
          rw [runClaims_successCount_of_not_pending _ rest t hnot]
          simp
        · have hcount : (st.pending.erase t).count tid ≤ 1 :=
            le_trans ((List.erase_sublist t st.pending).count_le tid) h
          have hbeq : (t == tid) = false := by
            simp [ht]
          simp only [hbeq, Bool.false_and, if_false, Nat.add_zero]
          exact ih _ hcount
      · rw [runClaims_cons_not_mem st t w rest hp, successCount_cons]
        simp only [Bool.and_false, if_false, Nat.add_zero]
        exact ih st h

/-- Witness for C7 at a concrete interleaving: one pending task `t1` and
three racing claim attempts (two of them for `t1`) yield at most one success
for `t1`, with every attempt answered. -/
theorem c7_at_most_one_claim_succeeds_witness :
    successCount
        (runClaims ⟨["t1"], []⟩
          [("t1", "w1"), ("t1", "w2"), ("t2", "w3")]).2 "t1" ≤ 1 ∧
    (runClaims ⟨["t1"], []⟩
        [("t1", "w1"), ("t1", "w2"), ("t2", "w3")]).2.map Prod.fst
      = [("t1", "w1"), ("t1", "w2"), ("t2", "w3")] :=
  c7_at_most_one_claim_succeeds ⟨["t1"], []⟩ "t1"
    [("t1", "w1"), ("t1", "w2"), ("t2", "w3")] (by decide)
